import Mathlib

/-! Package `detour`, type `directConn`: a shallow embedding of `direct_conn.go`.

`directConn` wraps a lazily dialled connection and keeps two atomic words,
`readFirst` and `shouldDetour`.  The embedding is by explicit state passing over
a `World`: the two words of the connection plus the ordered trace of every
externally visible action (atomic stores, calls into the detector, calls into the
underlying connection, log lines, channel sends).

What lives outside `direct_conn.go` is an input of the operation that uses it:
the detector in force, what `net.DialTimeout` returned, what the underlying
`Read`, `Write` and `Close` returned.  A Go slice keeps its capacity, so that the
slice expression `b[:n]` of `doRead` can fail exactly where Go panics.
-/

namespace detour

/-! ## Values -/

/-- A non-nil Go `error` value, identified by its message. -/
structure ErrVal where
  msg : String
deriving DecidableEq, Repr

/-- Go `error`: `none` is `nil`. -/
abbrev error := Option ErrVal

/-- The value of `fmt.Errorf(s)` for a format without verbs. -/
def Errorf (s : String) : error := some ⟨s⟩

/-- A Go `[]byte`: the elements below `len`, and the rest of the backing array
up to `cap`. -/
structure Slice where
  elems : List UInt8
  spare : List UInt8
deriving DecidableEq, Repr

namespace Slice

/-- Go `len(b)`. -/
def len (b : Slice) : Nat := b.elems.length

/-- Go `cap(b)`. -/
def cap (b : Slice) : Nat := b.elems.length + b.spare.length

/-- The backing array seen from the first element of the slice. -/
def backing (b : Slice) : List UInt8 := b.elems ++ b.spare

/-- Go `b[:n]`; `none` is the run-time panic "slice bounds out of range",
raised when `n < 0` or `n > cap(b)`. -/
def upTo (b : Slice) (n : Int) : Option Slice :=
  if 0 ≤ n ∧ n ≤ (b.cap : Int) then
    some ⟨b.backing.take n.toNat, b.backing.drop n.toNat⟩
  else none

/-- The slice after a callee stored `mem` at the start of its backing array:
length and capacity are those of `b`. -/
def filled (b : Slice) (mem : List UInt8) : Slice :=
  let arr := (mem ++ b.backing.drop mem.length).take b.cap
  ⟨arr.take b.len, arr.drop b.len⟩

end Slice

/-- A connection returned by `net.DialTimeout`: an identity and what its `Close`
returns. -/
structure NetConn where
  id : Nat
  closeErr : error
deriving DecidableEq, Repr

/-- The `ioResult` sent on the channel of `Read` and `Write`. -/
structure ioResult where
  i : Int
  err : error
deriving DecidableEq, Repr

/-- The three judgments of `*Detector` (the value of `detector()`). -/
structure Detector where
  DNSPoisoned : Option NetConn → Bool
  TamperingSuspected : error → Bool
  FakeResponse : Slice → Bool

/-- Levels of the package logger used in this file. -/
inductive Level
  | debug
  | trace
deriving DecidableEq, Repr

/-- Externally visible actions, in program order. -/
inductive Event
  | log (lvl : Level) (format : String)
  | casReadFirst (swapped : Bool)
  | storeShouldDetour (v : Int)
  | netDialTimeout (network addr : String)
  | askDNSPoisoned (c : Option NetConn)
  | askTamperingSuspected (e : error)
  | askFakeResponse (b : Slice)
  | closeDialed (c : NetConn)
  | connRead (b : Slice)
  | connWrite (b : Slice)
  | connClose
  | send (r : ioResult)
deriving DecidableEq, Repr

/-- The fields of `directConn` declared in this file (the embedded `net.Conn` is
the environment). -/
structure directConn where
  network : String
  addr : String
  readFirst : Int
  shouldDetour : Int
deriving DecidableEq, Repr

/-- A connection together with the trace of what has happened on it. -/
structure World where
  dc : directConn
  trace : List Event
deriving DecidableEq, Repr

/-- Append one action to the trace. -/
def World.emit (w : World) (e : Event) : World :=
  { w with trace := w.trace ++ [e] }

/-- What `net.DialTimeout(dc.network, dc.addr, DialTimeout)` returned. -/
structure DialReturn where
  conn : Option NetConn
  err : error
deriving DecidableEq, Repr

/-- What `dc.Conn.Read(b)` returned, and the bytes it stored into `b`. -/
structure ReadReturn where
  n : Int
  err : error
  mem : List UInt8
deriving DecidableEq, Repr

/-- The two values a `readChecker` takes in `Read`. -/
inductive readChecker
  | checkFirstRead
  | checkFollowupRead
deriving DecidableEq, Repr

/-! ## The methods of `directConn` -/

/-- Constructor `newDirectConn(network, addr)`: `readFirst` has its zero value,
`shouldDetour` is 1. -/
def newDirectConn (network addr : String) : World :=
  { dc := { network := network, addr := addr, readFirst := 0, shouldDetour := 1 },
    trace := [] }

namespace directConn

/-- Method `dc.setShouldDetour(should)`: the log line, then the atomic store of 1
or 0. -/
def setShouldDetour (w : World) (should : Bool) : World :=
  let w1 := w.emit (.log .trace "should detour to %s? %v")
  if should then
    { (w1.emit (.storeShouldDetour 1)) with dc := { w1.dc with shouldDetour := 1 } }
  else
    { (w1.emit (.storeShouldDetour 0)) with dc := { w1.dc with shouldDetour := 0 } }

/-- Method `dc.ShouldDetour()`: the atomic load compared with 1. -/
def ShouldDetour (w : World) : Bool :=
  w.dc.shouldDetour == 1

/-- The function literal `Dial` hands to `eventualConn.Dial`; `ret` is what
`net.DialTimeout` returned.  The result is `none` when `conn.Close()` is called
on a nil connection, which panics. -/
def dialFunc (w : World) (det : Detector) (ret : DialReturn) :
    Option (Option NetConn × error) × World :=
  let w1 := w.emit (.netDialTimeout w.dc.network w.dc.addr)
  match ret.err with
  | none =>
    let w2 := w1.emit (.askDNSPoisoned ret.conn)
    if det.DNSPoisoned ret.conn then
      match ret.conn with
      | none => (none, w2)
      | some conn =>
        let w3 := w2.emit (.closeDialed conn)
        let w4 := match conn.closeErr with
          | some _ => w3.emit (.log .debug "Error closing direct connection to %s: %s")
          | none => w3
        let w5 := w4.emit (.log .debug "Dial directly to %s, dns hijacked")
        (some (none, Errorf "DNS hijacked"), w5)
    else
      let w3 := w2.emit (.log .trace "Dial directly to %s succeeded")
      (some (ret.conn, none), w3)
  | some e =>
    let w2 := w1.emit (.askTamperingSuspected (some e))
    if det.TamperingSuspected (some e) then
      (some (none, some e),
        w2.emit (.log .debug "Dial directly to %s, tampering suspected: %s"))
    else
      (some (none, some e), w2.emit (.log .debug "Dial directly to %s failed: %s"))

/-- Modelled from the spec: `eventualConn.Dial` is not in this file.  The spec
gives it as `TriggerDial(dialFunc) -> resultChannel`, which runs the dial
function and reports its error on the channel; `dc.Dial()` returns that channel. -/
def Dial (w : World) (det : Detector) (ret : DialReturn) : Option error × World :=
  match dialFunc w det ret with
  | (none, w1) => (none, w1)
  | (some (_, err), w1) => (some err, w1)

/-- Method `dc.checkFirstRead(b, err)`. -/
def checkFirstRead (w : World) (det : Detector) (b : Slice) (err : error) :
    error × World :=
  match err with
  | some e =>
    let w1 := w.emit (.log .debug "Error while read from %s directly (first): %s")
    let w2 := w1.emit (.askTamperingSuspected (some e))
    if det.TamperingSuspected (some e) then
      (some e, setShouldDetour w2 true)
    else
      (some e, w2)
  | none =>
    let w1 := w.emit (.askFakeResponse b)
    if det.FakeResponse b then
      let w2 := w1.emit (.log .debug "Read %d bytes from %s directly, response is hijacked")
      (Errorf "response is hijacked", setShouldDetour w2 true)
    else
      (none, w1.emit (.log .trace "Read %d bytes from %s directly (first)"))

/-- Method `dc.checkFollowupRead(b, err)`. -/
def checkFollowupRead (w : World) (det : Detector) (b : Slice) (err : error) :
    error × World :=
  match err with
  | some e =>
    let w1 := w.emit (.log .debug "Error while read from %s directly (follow-up): %s")
    let w2 := w1.emit (.askTamperingSuspected (some e))
    if det.TamperingSuspected (some e) then
      let w3 := w2.emit (.log .debug "Seems %s is still blocked, should detour next time")
      (some e, setShouldDetour w3 true)
    else
      (some e, w2)
  | none =>
    let w1 := w.emit (.askFakeResponse b)
    if det.FakeResponse b then
      let w2 := w1.emit (.log .trace "%s is still content hijacked, should detour next time")
      (Errorf "response is hijacked", setShouldDetour w2 true)
    else
      (none, w1.emit (.log .trace "Read %d bytes from %s directly (follow-up)"))

end directConn

/-- Calling a `readChecker` value. -/
def readChecker.call (c : readChecker) (w : World) (det : Detector) (b : Slice)
    (err : error) : error × World :=
  match c with
  | .checkFirstRead => directConn.checkFirstRead w det b err
  | .checkFollowupRead => directConn.checkFollowupRead w det b err

namespace directConn

/-- Method `dc.doRead(b, checker)`; `ret` is what `dc.Conn.Read(b)` returned.  The
result is `none` when `b[:n]` panics. -/
def doRead (w : World) (det : Detector) (b : Slice) (ret : ReadReturn)
    (checker : readChecker) : Option (Int × error) × World :=
  let w1 := w.emit (.connRead b)
  match (b.filled ret.mem).upTo ret.n with
  | none => (none, w1)
  | some bn =>
    let (err, w2) := checker.call w1 det bn ret.err
    match err with
    | some e => (some (0, some e), w2)
    | none => (some (ret.n, none), w2)

/-- The part of `Read` that runs in the caller: the log line and the
compare-and-swap on `readFirst` that picks the checker. -/
def readSelect (w : World) : readChecker × World :=
  let w1 := w.emit (.log .trace "Reading from directConn to %s")
  if w1.dc.readFirst = 0 then
    (.checkFirstRead,
      { (w1.emit (.casReadFirst true)) with dc := { w1.dc with readFirst := 1 } })
  else
    (.checkFollowupRead, w1.emit (.casReadFirst false))

/-- The goroutine started by `Read`; the result is what is sent on `ch`, `none`
when the goroutine panics before sending. -/
def readGo (w : World) (det : Detector) (b : Slice) (ret : ReadReturn)
    (checker : readChecker) : Option ioResult × World :=
  let w1 := setShouldDetour w true
  match doRead w1 det b ret checker with
  | (none, w2) => (none, w2)
  | (some (i, err), w2) =>
    let result : ioResult := { i := i, err := err }
    let w3 := w2.emit (.log .trace "Read %d bytes from directConn to %s, err: %v")
    let w4 := match result.err with
      | none => setShouldDetour w3 false
      | some _ => w3
    (some result, w4.emit (.send result))

/-- Method `dc.Read(b)`, the goroutine run to completion. -/
def Read (w : World) (det : Detector) (b : Slice) (ret : ReadReturn) :
    Option ioResult × World :=
  let (checker, w1) := readSelect w
  readGo w1 det b ret checker

/-- Method `dc.Write(b)`, the goroutine run to completion; `ret` is what
`dc.Conn.Write(b)` returned. -/
def Write (w : World) (b : Slice) (ret : Int × error) : ioResult × World :=
  let w1 := w.emit (.connWrite b)
  let result : ioResult := { i := ret.1, err := ret.2 }
  (result, w1.emit (.send result))

/-- Method `dc.Close()`; `ret` is what `dc.Conn.Close()` returned. -/
def Close (w : World) (ret : error) : error × World :=
  (ret, w.emit .connClose)

end directConn

/-! ## Runs -/

/-- One call on a connection, with what the environment answered. -/
inductive Op
  | dial (det : Detector) (ret : DialReturn)
  | read (det : Detector) (b : Slice) (ret : ReadReturn)
  | write (b : Slice) (ret : Int × error)
  | close (ret : error)

/-- What a completed call delivered to its caller. -/
inductive Ret
  | dial (e : error)
  | read (r : ioResult)
  | write (r : ioResult)
  | close (e : error)
deriving DecidableEq, Repr

/-- Run one call to completion; `none` when it panics. -/
def Op.exec (w : World) : Op → Option Ret × World
  | .dial det ret =>
    match directConn.Dial w det ret with
    | (none, w1) => (none, w1)
    | (some e, w1) => (some (.dial e), w1)
  | .read det b ret =>
    match directConn.Read w det b ret with
    | (none, w1) => (none, w1)
    | (some r, w1) => (some (.read r), w1)
  | .write b ret =>
    let (r, w1) := directConn.Write w b ret
    (some (.write r), w1)
  | .close ret =>
    let (e, w1) := directConn.Close w ret
    (some (.close e), w1)

/-- A sequential run: each call completes before the next one starts.  The
result lists what the calls delivered, oldest first; `none` when a call panics,
which ends the program. -/
def run (w : World) : List Op → Option (List Ret × World)
  | [] => some ([], w)
  | op :: ops =>
    match op.exec w with
    | (none, _) => none
    | (some r, w1) =>
      match run w1 ops with
      | none => none
      | some (rs, w2) => some (r :: rs, w2)

/-- The result of the most recently completed read among `rs`. -/
def lastRead : List Ret → Option ioResult
  | [] => none
  | r :: rs =>
    match lastRead rs with
    | some x => some x
    | none =>
      match r with
      | .read x => some x
      | _ => none

/-- The steps of concurrent callers, each atomic with respect to `readFirst`:
`readCall` is the part of a `Read` call up to and including its compare-and-swap,
`readGo` a read goroutine (with whatever checker it was started with), and the
other three are whole calls. -/
inductive Act
  | readCall
  | readGo (checker : readChecker) (det : Detector) (b : Slice) (ret : ReadReturn)
  | dial (det : Detector) (ret : DialReturn)
  | write (b : Slice) (ret : Int × error)
  | close (ret : error)

/-- The checker picked by a step, if it is a `readCall`, and the world after the
step; the world is `none` when the step panics. -/
def Act.step (w : World) : Act → Option (Option readChecker × World)
  | .readCall =>
    let (c, w1) := directConn.readSelect w
    some (some c, w1)
  | .readGo checker det b ret =>
    match directConn.readGo w det b ret checker with
    | (none, _) => none
    | (some _, w1) => some (none, w1)
  | .dial det ret =>
    match directConn.Dial w det ret with
    | (none, _) => none
    | (some _, w1) => some (none, w1)
  | .write b ret => some (none, (directConn.Write w b ret).2)
  | .close ret => some (none, (directConn.Close w ret).2)

/-- Run the steps in the given order, collecting the checkers picked by the
`readCall` steps in that order. -/
def sched (w : World) : List Act → Option (List readChecker × World)
  | [] => some ([], w)
  | a :: as =>
    match a.step w with
    | none => none
    | some (c, w1) =>
      match sched w1 as with
      | none => none
      | some (cs, w2) => some (c.toList ++ cs, w2)

/-- Number of `readCall` steps in a schedule. -/
def readCalls : List Act → Nat
  | [] => 0
  | .readCall :: as => readCalls as + 1
  | _ :: as => readCalls as

/-- The value of `shouldDetour` after the actions `evs`, starting from `v`. -/
def flagAfter (v : Int) : List Event → Int
  | [] => v
  | .storeShouldDetour x :: evs => flagAfter x evs
  | _ :: evs => flagAfter v evs

/-- An atomic store to `shouldDetour`. -/
def Event.isStore : Event → Bool
  | .storeShouldDetour _ => true
  | _ => false

/-- A call into the detector. -/
def Event.isAsk : Event → Bool
  | .askDNSPoisoned _ => true
  | .askTamperingSuspected _ => true
  | .askFakeResponse _ => true
  | _ => false

/-- A call of `FakeResponse`. -/
def Event.isAskFake : Event → Bool
  | .askFakeResponse _ => true
  | _ => false

/-- A `Close` of a connection returned by `net.DialTimeout`. -/
def Event.isCloseDialed : Event → Bool
  | .closeDialed _ => true
  | _ => false

/-- The checkers picked by `k` successive compare-and-swaps on `readFirst`, the
first of which finds the value `r`. -/
def picks (r : Int) : Nat → List readChecker
  | 0 => []
  | k + 1 =>
    (if r = 0 then readChecker.checkFirstRead else readChecker.checkFollowupRead) ::
      List.replicate k readChecker.checkFollowupRead

/-! ## Sample values -/

/-- A detector that never reports interference. -/
def quietDetector : Detector :=
  { DNSPoisoned := fun _ => false
    TamperingSuspected := fun _ => false
    FakeResponse := fun _ => false }

/-- A detector that always reports interference. -/
def alarmDetector : Detector :=
  { DNSPoisoned := fun _ => true
    TamperingSuspected := fun _ => true
    FakeResponse := fun _ => true }

/-- A buffer of four zero bytes, `make([]byte, 4)`. -/
def zeroBuf4 : Slice := ⟨[0, 0, 0, 0], []⟩

/-- The first three bytes of `zeroBuf4` after `[72, 84, 84]` was stored in it. -/
def httBuf3 : Slice := ⟨[72, 84, 84], [0]⟩

/-- A dialled connection whose `Close` fails. -/
def stubbornConn : NetConn := ⟨7, some ⟨"use of closed network connection"⟩⟩

/-- A read timeout. -/
def timeoutErr : ErrVal := ⟨"i/o timeout"⟩

/-- A new connection to a sample address. -/
def sampleConn : World := newDirectConn "tcp" "example.com:80"

/-- A schedule in which three `Read` calls race around a `Write` and a read
goroutine. -/
def sampleSchedule : List Act :=
  [.readCall, .write zeroBuf4 (4, none), .readCall,
    .readGo .checkFollowupRead quietDetector zeroBuf4 ⟨3, none, [72, 84, 84]⟩, .readCall]

/-- Dial, then a clean read of three bytes. -/
def cleanOps : List Op :=
  [.dial quietDetector ⟨some stubbornConn, none⟩,
    .read quietDetector zeroBuf4 ⟨3, none, [72, 84, 84]⟩]

/-- Dial, a clean read of three bytes, a write, then a read that times out. -/
def timeoutOps : List Op :=
  cleanOps ++ [.write zeroBuf4 (4, none),
    .read alarmDetector zeroBuf4 ⟨0, some timeoutErr, []⟩]

/-! ## Slices -/

theorem Slice.filled_cap (b : Slice) (mem : List UInt8) : (b.filled mem).cap = b.cap := by
  simp only [Slice.filled, Slice.cap, Slice.len, Slice.backing, List.length_take,
    List.length_drop, List.length_append]
  omega

theorem Slice.len_le_cap (b : Slice) : b.len ≤ b.cap := by
  simp only [Slice.len, Slice.cap]
  omega

theorem Slice.upTo_isSome (b : Slice) (n : Int) (h0 : 0 ≤ n) (hn : n ≤ (b.cap : Int)) :
    ∃ bn, b.upTo n = some bn := by
  simp [Slice.upTo, h0, hn]

theorem Slice.upTo_eq_none (b : Slice) (n : Int) (h : n < 0 ∨ (b.cap : Int) < n) :
    b.upTo n = none := by
  have : ¬ (0 ≤ n ∧ n ≤ (b.cap : Int)) := by omega
  simp [Slice.upTo, this]

/-! ## Reads -/

open directConn

theorem readSelect_trace (w : World) :
    (readSelect w).2.trace = w.trace ++
      [.log .trace "Reading from directConn to %s",
        .casReadFirst (decide (w.dc.readFirst = 0))] := by
  by_cases h : w.dc.readFirst = 0 <;> simp [readSelect, World.emit, h]

theorem readSelect_checker (w : World) :
    (readSelect w).1 =
      if w.dc.readFirst = 0 then readChecker.checkFirstRead
      else readChecker.checkFollowupRead := by
  by_cases h : w.dc.readFirst = 0 <;> simp [readSelect, World.emit, h]

theorem readSelect_readFirst (w : World) :
    (readSelect w).2.dc.readFirst = if w.dc.readFirst = 0 then 1 else w.dc.readFirst := by
  by_cases h : w.dc.readFirst = 0 <;> simp [readSelect, World.emit, h]

/-- What a read goroutine delivers, and the `shouldDetour` it leaves, are
functions of the detector, the buffer and the underlying read alone. -/
theorem readGo_independent (w1 w2 : World) (det : Detector) (b : Slice) (ret : ReadReturn)
    (c1 c2 : readChecker) :
    (readGo w1 det b ret c1).1 = (readGo w2 det b ret c2).1 ∧
      (readGo w1 det b ret c1).2.dc.shouldDetour =
        (readGo w2 det b ret c2).2.dc.shouldDetour := by
  cases hbn : (b.filled ret.mem).upTo ret.n with
  | none => simp [readGo, doRead, hbn, setShouldDetour, World.emit]
  | some bn =>
    cases herr : ret.err with
    | none =>
      cases hf : det.FakeResponse bn <;> cases c1 <;> cases c2 <;>
        simp [readGo, doRead, hbn, herr, readChecker.call, checkFirstRead, checkFollowupRead,
          hf, setShouldDetour, World.emit, Errorf]
    | some e =>
      cases ht : det.TamperingSuspected (some e) <;> cases c1 <;> cases c2 <;>
        simp [readGo, doRead, hbn, herr, readChecker.call, checkFirstRead, checkFollowupRead,
          ht, setShouldDetour, World.emit]

/-- A read goroutine writes no field of the connection but `shouldDetour`. -/
theorem readGo_dc (w : World) (det : Detector) (b : Slice) (ret : ReadReturn)
    (c : readChecker) :
    (readGo w det b ret c).2.dc =
      { w.dc with shouldDetour := (readGo w det b ret c).2.dc.shouldDetour } := by
  cases hbn : (b.filled ret.mem).upTo ret.n with
  | none => simp [readGo, doRead, hbn, setShouldDetour, World.emit]
  | some bn =>
    cases herr : ret.err with
    | none =>
      cases hf : det.FakeResponse bn <;> cases c <;>
        simp [readGo, doRead, hbn, herr, readChecker.call, checkFirstRead, checkFollowupRead,
          hf, setShouldDetour, World.emit, Errorf]
    | some e =>
      cases ht : det.TamperingSuspected (some e) <;> cases c <;>
        simp [readGo, doRead, hbn, herr, readChecker.call, checkFirstRead, checkFollowupRead,
          ht, setShouldDetour, World.emit]

/-- When the count returned by the underlying read is negative or above
`cap(b)`, the slice expression `b[:n]` panics and the goroutine sends nothing,
whatever the error, the checker and the detector. -/
theorem readGo_out_of_range (w : World) (det : Detector) (b : Slice) (ret : ReadReturn)
    (c : readChecker) (h : ret.n < 0 ∨ (b.cap : Int) < ret.n) :
    (readGo w det b ret c).1 = none := by
  have hbn : (b.filled ret.mem).upTo ret.n = none := by
    apply Slice.upTo_eq_none
    rw [Slice.filled_cap]
    exact h
  simp [readGo, doRead, hbn]

/-- C1: when the underlying read returns `(n, nil)` with `0 ≤ n ≤ len(b)` and the
detector does not call `b[:n]` a fake response, the read goroutine started with
either checker, and `Read` from any connection state, deliver exactly `(n, nil)`,
and `ShouldDetour()` is false once the read has completed. -/
theorem Read_clean (w : World) (det : Detector) (b : Slice) (ret : ReadReturn)
    (herr : ret.err = none) (h0 : 0 ≤ ret.n) (hn : ret.n ≤ (b.len : Int))
    (hfake : ∀ bn, (b.filled ret.mem).upTo ret.n = some bn → det.FakeResponse bn = false) :
    (∀ c : readChecker,
        (readGo w det b ret c).1 = some ⟨ret.n, none⟩ ∧
        ShouldDetour (readGo w det b ret c).2 = false) ∧
      (Read w det b ret).1 = some ⟨ret.n, none⟩ ∧
      ShouldDetour (Read w det b ret).2 = false := by
  have hcap : ret.n ≤ ((b.filled ret.mem).cap : Int) := by
    rw [Slice.filled_cap]
    have := Slice.len_le_cap b
    omega
  obtain ⟨bn, hbn⟩ := Slice.upTo_isSome _ _ h0 hcap
  have hf := hfake bn hbn
  have key : ∀ (v : World) (c : readChecker),
      (readGo v det b ret c).1 = some ⟨ret.n, none⟩ ∧
      ShouldDetour (readGo v det b ret c).2 = false := by
    intro v c
    cases c <;>
      simp [readGo, doRead, hbn, herr, readChecker.call, checkFirstRead, checkFollowupRead,
        hf, setShouldDetour, World.emit, ShouldDetour]
  exact ⟨key w, key _ _⟩

/-- C2: when the underlying read returns `(n, nil)` and the detector calls the
`n` bytes read, `b[:n]`, a fake response, the read goroutine started with either
checker, and `Read` from any connection state, deliver a count of 0 with the error
"response is hijacked", and `ShouldDetour()` is true once the read has completed. -/
theorem Read_fake (w : World) (det : Detector) (b : Slice) (ret : ReadReturn) (bn : Slice)
    (herr : ret.err = none) (hbn : (b.filled ret.mem).upTo ret.n = some bn)
    (hfake : det.FakeResponse bn = true) :
    (∀ c : readChecker,
        (readGo w det b ret c).1 = some ⟨0, some ⟨"response is hijacked"⟩⟩ ∧
        ShouldDetour (readGo w det b ret c).2 = true) ∧
      (Read w det b ret).1 = some ⟨0, some ⟨"response is hijacked"⟩⟩ ∧
      ShouldDetour (Read w det b ret).2 = true := by
  have key : ∀ (v : World) (c : readChecker),
      (readGo v det b ret c).1 = some ⟨0, some ⟨"response is hijacked"⟩⟩ ∧
      ShouldDetour (readGo v det b ret c).2 = true := by
    intro v c
    cases c <;>
      simp [readGo, doRead, hbn, herr, readChecker.call, checkFirstRead, checkFollowupRead,
        hfake, setShouldDetour, World.emit, ShouldDetour, Errorf]
  exact ⟨key w, key _ _⟩

/-- C3: when the underlying read returns `(n, e)` with `e` non-nil, for every
count `n` a read can return (`0 ≤ n ≤ len(b)`, and more generally every `n` up
to `cap(b)`), the read goroutine started with either checker, and `Read` from
any connection state, deliver `(0, e)` with that same `e`, whatever
`TamperingSuspected(e)` answers; `FakeResponse` is not called, and
`ShouldDetour()` is true once the read has completed. -/
theorem Read_error (w : World) (det : Detector) (b : Slice) (ret : ReadReturn) (e : ErrVal)
    (herr : ret.err = some e) (h0 : 0 ≤ ret.n) (hn : ret.n ≤ (b.cap : Int)) :
    (∀ c : readChecker,
        (readGo w det b ret c).1 = some ⟨0, some e⟩ ∧
        ShouldDetour (readGo w det b ret c).2 = true ∧
        (readGo w det b ret c).2.trace.countP Event.isAskFake =
          w.trace.countP Event.isAskFake) ∧
      (Read w det b ret).1 = some ⟨0, some e⟩ ∧
      ShouldDetour (Read w det b ret).2 = true ∧
      (Read w det b ret).2.trace.countP Event.isAskFake =
        w.trace.countP Event.isAskFake := by
  have hcap : ret.n ≤ ((b.filled ret.mem).cap : Int) := by
    rw [Slice.filled_cap]
    exact hn
  obtain ⟨bn, hbn⟩ := Slice.upTo_isSome _ _ h0 hcap
  have key : ∀ (v : World) (c : readChecker),
      (readGo v det b ret c).1 = some ⟨0, some e⟩ ∧
      ShouldDetour (readGo v det b ret c).2 = true ∧
      (readGo v det b ret c).2.trace.countP Event.isAskFake =
        v.trace.countP Event.isAskFake := by
    intro v c
    cases c <;> cases ht : det.TamperingSuspected (some e) <;>
      simp [readGo, doRead, hbn, herr, readChecker.call, checkFirstRead, checkFollowupRead,
        ht, setShouldDetour, World.emit, ShouldDetour, Event.isAskFake]
  refine ⟨key w, ?_⟩
  have h := key (readSelect w).2 (readSelect w).1
  have htr : (readSelect w).2.trace.countP Event.isAskFake =
      w.trace.countP Event.isAskFake := by
    simp [readSelect_trace, Event.isAskFake]
  rw [htr] at h
  exact h

/-- C10: `checkFirstRead` and `checkFollowupRead` return the same error and
leave the connection (so `shouldDetour`) with the same value, for every slice,
read error, detector and prior state; hence what a read goroutine delivers and
the connection it leaves do not depend on its checker, and what `Read` delivers
and the `ShouldDetour()` after it do not depend on the value of `readFirst` at
the call. -/
theorem checkers_equivalent (w : World) (det : Detector) (b : Slice) (err : error)
    (ret : ReadReturn) (r1 r2 : Int) :
    (checkFirstRead w det b err).1 = (checkFollowupRead w det b err).1 ∧
      (checkFirstRead w det b err).2.dc = (checkFollowupRead w det b err).2.dc ∧
      (∀ c1 c2 : readChecker,
        (readGo w det b ret c1).1 = (readGo w det b ret c2).1 ∧
        (readGo w det b ret c1).2.dc = (readGo w det b ret c2).2.dc) ∧
      (Read { w with dc := { w.dc with readFirst := r1 } } det b ret).1 =
        (Read { w with dc := { w.dc with readFirst := r2 } } det b ret).1 ∧
      ShouldDetour (Read { w with dc := { w.dc with readFirst := r1 } } det b ret).2 =
        ShouldDetour (Read { w with dc := { w.dc with readFirst := r2 } } det b ret).2 := by
  refine ⟨?_, ?_, ?_, ?_, ?_⟩
  · cases err <;> simp only [checkFirstRead, checkFollowupRead] <;> split <;> rfl
  · cases err <;> simp only [checkFirstRead, checkFollowupRead] <;> split <;>
      simp [setShouldDetour, World.emit]
  · intro c1 c2
    refine ⟨(readGo_independent w w det b ret c1 c2).1, ?_⟩
    refine (readGo_dc w det b ret c1).trans ?_
    rw [(readGo_independent w w det b ret c1 c2).2]
    exact (readGo_dc w det b ret c2).symm
  · exact (readGo_independent _ _ det b ret _ _).1
  · simp only [ShouldDetour, Read]
    rw [(readGo_independent _ _ det b ret _ _).2]

/-! ## Dial, Write, Close -/

/-- C5: when `net.DialTimeout` succeeds with a connection `c` and the detector
reports `c` as DNS poisoned, the dial function returns no connection and the
error "DNS hijacked" (which `Dial` reports), whatever `c.Close()` returns; `c` is
closed exactly once and nothing else is closed; `shouldDetour` is not stored to
and the connection fields are unchanged, so on a connection that has had no read
`ShouldDetour()` is still true. -/
theorem dialFunc_poisoned (w : World) (det : Detector) (c : NetConn)
    (hp : det.DNSPoisoned (some c) = true) :
    (dialFunc w det ⟨some c, none⟩).1 = some (none, some ⟨"DNS hijacked"⟩) ∧
      (Dial w det ⟨some c, none⟩).1 = some (some ⟨"DNS hijacked"⟩) ∧
      (dialFunc w det ⟨some c, none⟩).2.trace.count (.closeDialed c) =
        w.trace.count (.closeDialed c) + 1 ∧
      (dialFunc w det ⟨some c, none⟩).2.trace.countP Event.isCloseDialed =
        w.trace.countP Event.isCloseDialed + 1 ∧
      (dialFunc w det ⟨some c, none⟩).2.trace.countP Event.isStore =
        w.trace.countP Event.isStore ∧
      (dialFunc w det ⟨some c, none⟩).2.dc = w.dc ∧
      (∀ network addr : String,
        ShouldDetour (dialFunc (newDirectConn network addr) det ⟨some c, none⟩).2 = true) := by
  cases hc : c.closeErr <;>
    simp [dialFunc, Dial, hp, hc, World.emit, Errorf, Event.isCloseDialed, Event.isStore,
      ShouldDetour, newDirectConn]

/-- C6: when the detector does not report DNS poisoning, the dial function
returns what `net.DialTimeout` returned: the connection with a nil error when
the dial succeeded, no connection with the same error when it failed, whatever
`TamperingSuspected` answers; no dialled connection is closed, `shouldDetour` is
not stored to and the connection fields are unchanged. -/
theorem dialFunc_passthrough (w : World) (det : Detector) (ret : DialReturn)
    (hp : ret.err = none → det.DNSPoisoned ret.conn = false) :
    (dialFunc w det ret).1 =
        some (if ret.err = none then (ret.conn, none) else (none, ret.err)) ∧
      (Dial w det ret).1 = some ret.err ∧
      (dialFunc w det ret).2.trace.countP Event.isCloseDialed =
        w.trace.countP Event.isCloseDialed ∧
      (dialFunc w det ret).2.trace.countP Event.isStore = w.trace.countP Event.isStore ∧
      (dialFunc w det ret).2.dc = w.dc := by
  cases herr : ret.err with
  | none =>
    simp [dialFunc, Dial, herr, hp herr, World.emit, Event.isCloseDialed, Event.isStore]
  | some e =>
    cases ht : det.TamperingSuspected (some e) <;>
      simp [dialFunc, Dial, herr, ht, World.emit, Event.isCloseDialed, Event.isStore]

/-- C7: from every connection state and for every buffer, `Write` delivers
exactly the count and error returned by the underlying `Write(b)`, makes no call
into the detector, stores nothing to `shouldDetour`, and leaves `shouldDetour`
and `readFirst` unchanged, whether the underlying write succeeded or failed. -/
theorem Write_passthrough (w : World) (b : Slice) (n : Int) (err : error) :
    (Write w b (n, err)).1 = ⟨n, err⟩ ∧
      (Write w b (n, err)).2.trace = w.trace ++ [.connWrite b, .send ⟨n, err⟩] ∧
      (Write w b (n, err)).2.trace.countP Event.isAsk = w.trace.countP Event.isAsk ∧
      (Write w b (n, err)).2.trace.countP Event.isStore = w.trace.countP Event.isStore ∧
      (Write w b (n, err)).2.dc.shouldDetour = w.dc.shouldDetour ∧
      (Write w b (n, err)).2.dc.readFirst = w.dc.readFirst := by
  simp [Write, World.emit, Event.isAsk, Event.isStore]

/-! ## The one-shot flag `readFirst` -/

theorem dialFunc_dc (w : World) (det : Detector) (ret : DialReturn) :
    (dialFunc w det ret).2.dc = w.dc := by
  cases herr : ret.err with
  | none =>
    cases hp : det.DNSPoisoned ret.conn
    · simp [dialFunc, herr, hp, World.emit]
    · cases hc : ret.conn with
      | none =>
        rw [hc] at hp
        simp [dialFunc, herr, hp, hc, World.emit]
      | some c =>
        rw [hc] at hp
        cases hce : c.closeErr <;> simp [dialFunc, herr, hp, hc, hce, World.emit]
  | some e =>
    cases ht : det.TamperingSuspected (some e) <;> simp [dialFunc, herr, ht, World.emit]

theorem Dial_dc (w : World) (det : Detector) (ret : DialReturn) :
    (Dial w det ret).2.dc = w.dc := by
  have h := dialFunc_dc w det ret
  unfold Dial
  split <;> simp_all

/-- A step that is not a `readCall` leaves `readFirst` alone and picks nothing. -/
theorem Act.step_frame (w w1 : World) (a : Act) (c : Option readChecker)
    (ha : a ≠ .readCall) (h : a.step w = some (c, w1)) :
    c = none ∧ w1.dc.readFirst = w.dc.readFirst := by
  cases a with
  | readCall => exact absurd rfl ha
  | readGo checker det b ret =>
    have hdc := readGo_dc w det b ret checker
    simp only [Act.step] at h
    split at h
    · simp at h
    · rename_i r w2 heq
      simp only [Option.some.injEq, Prod.mk.injEq] at h
      rw [heq] at hdc
      obtain ⟨h1, h2⟩ := h
      subst h2
      exact ⟨h1.symm, by rw [hdc]⟩
  | dial det ret =>
    have hdc := Dial_dc w det ret
    simp only [Act.step] at h
    split at h
    · simp at h
    · rename_i r w2 heq
      simp only [Option.some.injEq, Prod.mk.injEq] at h
      rw [heq] at hdc
      obtain ⟨h1, h2⟩ := h
      subst h2
      exact ⟨h1.symm, by rw [hdc]⟩
  | write b ret =>
    simp only [Act.step, Option.some.injEq, Prod.mk.injEq] at h
    obtain ⟨h1, h2⟩ := h
    subst h2
    exact ⟨h1.symm, by simp [Write, World.emit]⟩
  | close ret =>
    simp only [Act.step, Option.some.injEq, Prod.mk.injEq] at h
    obtain ⟨h1, h2⟩ := h
    subst h2
    exact ⟨h1.symm, by simp [Close, World.emit]⟩

/-- The checkers picked along a schedule, from any starting value of `readFirst`. -/
theorem sched_picks (acts : List Act) :
    ∀ (w w1 : World) (cs : List readChecker), sched w acts = some (cs, w1) →
      cs = picks w.dc.readFirst (readCalls acts) ∧
      w1.dc.readFirst =
        if readCalls acts = 0 then w.dc.readFirst
        else if w.dc.readFirst = 0 then 1 else w.dc.readFirst := by
  induction acts with
  | nil =>
    intro w w1 cs h
    simp only [sched, Option.some.injEq, Prod.mk.injEq] at h
    obtain ⟨h1, h2⟩ := h
    subst h1 h2
    simp [picks, readCalls]
  | cons a as ih =>
    intro w w1 cs h
    simp only [sched] at h
    cases hs : a.step w with
    | none => simp [hs] at h
    | some p =>
      obtain ⟨c, w2⟩ := p
      rw [hs] at h
      simp only at h
      cases hr : sched w2 as with
      | none => simp [hr] at h
      | some q =>
        obtain ⟨cs2, w3⟩ := q
        rw [hr] at h
        simp only [Option.some.injEq, Prod.mk.injEq] at h
        obtain ⟨h1, h2⟩ := h
        subst h1 h2
        obtain ⟨ihc, ihw⟩ := ih w2 w3 cs2 hr
        by_cases ha : a = .readCall
        · subst ha
          simp only [Act.step, Option.some.injEq, Prod.mk.injEq] at hs
          obtain ⟨hc, hw⟩ := hs
          subst hc hw
          rw [ihc, ihw, readSelect_readFirst, readSelect_checker]
          by_cases h0 : w.dc.readFirst = 0
          · cases hk : readCalls as <;> simp [picks, readCalls, hk, h0, List.replicate_succ]
          · cases hk : readCalls as <;> simp [picks, readCalls, hk, h0, List.replicate_succ]
        · obtain ⟨hc, hw⟩ := Act.step_frame w w2 a c ha hs
          subst hc
          have hcalls : readCalls (a :: as) = readCalls as := by
            cases a <;> first | exact absurd rfl ha | rfl
          rw [hcalls, ihc, ihw, hw]
          simp

/-- C4: on a newly constructed connection, whatever the interleaving of `Read`
calls (in the order of their compare-and-swap), read goroutines, `Dial`, `Write`
and `Close`: the first `Read` call picks the first-read checker and every other
one the follow-up checker, so exactly one call picks the first-read checker;
`readFirst` is 0 until the first `Read` call and 1 ever after; and `Dial`,
`Write`, `Close` and the read goroutines leave `readFirst` as it is. -/
theorem readFirst_single_winner (network addr : String) (acts : List Act)
    (cs : List readChecker) (w : World)
    (h : sched (newDirectConn network addr) acts = some (cs, w)) :
    (newDirectConn network addr).dc.readFirst = 0 ∧
      cs = (List.replicate (readCalls acts) readChecker.checkFollowupRead).set 0
        readChecker.checkFirstRead ∧
      cs.count readChecker.checkFirstRead = (if readCalls acts = 0 then 0 else 1) ∧
      w.dc.readFirst = (if readCalls acts = 0 then 0 else 1) ∧
      (∀ (v : World) (det : Detector) (ret : DialReturn),
        (Dial v det ret).2.dc.readFirst = v.dc.readFirst) ∧
      (∀ (v : World) (b : Slice) (ret : Int × error),
        (Write v b ret).2.dc.readFirst = v.dc.readFirst) ∧
      (∀ (v : World) (ret : error), (Close v ret).2.dc.readFirst = v.dc.readFirst) ∧
      (∀ (v : World) (det : Detector) (b : Slice) (ret : ReadReturn) (c : readChecker),
        (readGo v det b ret c).2.dc.readFirst = v.dc.readFirst) := by
  obtain ⟨hcs, hw⟩ := sched_picks acts _ w cs h
  have hpick : cs = (List.replicate (readCalls acts) readChecker.checkFollowupRead).set 0
      readChecker.checkFirstRead := by
    rw [hcs]
    cases hk : readCalls acts <;> simp [picks, newDirectConn, List.replicate_succ]
  refine ⟨rfl, hpick, ?_, ?_, ?_, ?_, ?_, ?_⟩
  · rw [hpick]
    cases hk : readCalls acts <;> simp [List.replicate_succ, List.count_replicate]
  · rw [hw]
    simp [newDirectConn]
  · intro v det ret
    rw [Dial_dc]
  · intro v b ret
    simp [Write, World.emit]
  · intro v ret
    simp [Close, World.emit]
  · intro v det b ret c
    rw [readGo_dc]

/-! ## The flag `shouldDetour` -/

/-- After a completed read goroutine the flag is clear exactly when the
delivered result has no error. -/
theorem readGo_flag (w : World) (det : Detector) (b : Slice) (ret : ReadReturn)
    (c : readChecker) (r : ioResult) (h : (readGo w det b ret c).1 = some r) :
    (ShouldDetour (readGo w det b ret c).2 = false ↔ r.err = none) := by
  cases hbn : (b.filled ret.mem).upTo ret.n with
  | none => simp [readGo, doRead, hbn, setShouldDetour, World.emit] at h
  | some bn =>
    cases herr : ret.err with
    | none =>
      cases hf : det.FakeResponse bn <;> cases c <;>
        simp [readGo, doRead, hbn, herr, readChecker.call, checkFirstRead, checkFollowupRead,
          hf, setShouldDetour, World.emit, Errorf] at h ⊢ <;>
        simp [← h, ShouldDetour]
    | some e =>
      cases ht : det.TamperingSuspected (some e) <;> cases c <;>
        simp [readGo, doRead, hbn, herr, readChecker.call, checkFirstRead, checkFollowupRead,
          ht, setShouldDetour, World.emit] at h ⊢ <;>
        simp [← h, ShouldDetour]

/-- One call of a sequential run: a read leaves the flag clear exactly when it
delivered no error; any other call leaves the flag as it was. -/
theorem Op.exec_flag (w w1 : World) (op : Op) (r : Ret) (h : op.exec w = (some r, w1)) :
    (∃ x, r = .read x ∧ (ShouldDetour w1 = false ↔ x.err = none)) ∨
      ((∀ x, r ≠ .read x) ∧ ShouldDetour w1 = ShouldDetour w) := by
  cases op with
  | dial det ret =>
    right
    have hdc := Dial_dc w det ret
    simp only [Op.exec] at h
    split at h
    · simp at h
    · rename_i e w2 heq
      simp only [Prod.mk.injEq, Option.some.injEq] at h
      rw [heq] at hdc
      obtain ⟨h1, h2⟩ := h
      subst h1 h2
      exact ⟨by intro x; simp, by simp only [ShouldDetour]; rw [hdc]⟩
  | read det b ret =>
    left
    simp only [Op.exec] at h
    split at h
    · simp at h
    · rename_i x w2 heq
      simp only [Prod.mk.injEq, Option.some.injEq] at h
      obtain ⟨h1, h2⟩ := h
      subst h1 h2
      refine ⟨x, rfl, ?_⟩
      have hx : (readGo (readSelect w).2 det b ret (readSelect w).1).1 = some x := by
        have := congrArg Prod.fst heq
        simpa [Read] using this
      have hflag := readGo_flag _ det b ret _ x hx
      have hw : (readGo (readSelect w).2 det b ret (readSelect w).1).2 = w2 := by
        have := congrArg Prod.snd heq
        simpa [Read] using this
      rw [hw] at hflag
      exact hflag
  | write b ret =>
    right
    simp only [Op.exec, Prod.mk.injEq, Option.some.injEq] at h
    obtain ⟨h1, h2⟩ := h
    subst h1 h2
    exact ⟨by intro x; simp, by simp [ShouldDetour, Write, World.emit]⟩
  | close ret =>
    right
    simp only [Op.exec, Prod.mk.injEq, Option.some.injEq] at h
    obtain ⟨h1, h2⟩ := h
    subst h1 h2
    exact ⟨by intro x; simp, by simp [ShouldDetour, Close, World.emit]⟩

/-- Along a sequential run from any state: the flag is clear at the end exactly
when the last completed read delivered no error, or no read completed and the
flag was clear at the start. -/
theorem run_flag (ops : List Op) :
    ∀ (w w1 : World) (rs : List Ret), run w ops = some (rs, w1) →
      (ShouldDetour w1 = false ↔
        (∃ x, lastRead rs = some x ∧ x.err = none) ∨
          (lastRead rs = none ∧ ShouldDetour w = false)) := by
  induction ops with
  | nil =>
    intro w w1 rs h
    simp only [run, Option.some.injEq, Prod.mk.injEq] at h
    obtain ⟨h1, h2⟩ := h
    subst h1 h2
    simp [lastRead]
  | cons op ops ih =>
    intro w w1 rs h
    simp only [run] at h
    cases he : op.exec w with
    | mk o w2 =>
      rw [he] at h
      cases o with
      | none => simp at h
      | some r =>
        simp only at h
        cases hr : run w2 ops with
        | none => simp [hr] at h
        | some q =>
          obtain ⟨rs2, w3⟩ := q
          rw [hr] at h
          simp only [Option.some.injEq, Prod.mk.injEq] at h
          obtain ⟨h1, h2⟩ := h
          subst h1 h2
          rw [ih w2 w3 rs2 hr]
          cases hl : lastRead rs2 with
          | some y => simp [lastRead, hl]
          | none =>
            rcases Op.exec_flag w w2 op r he with ⟨x, hx, hflag⟩ | ⟨hne, hflag⟩
            · subst hx
              simp [lastRead, hl, hflag]
            · have hnone : lastRead (r :: rs2) = none := by
                cases r with
                | read x => exact absurd rfl (hne x)
                | dial e => simp [lastRead, hl]
                | write x => simp [lastRead, hl]
                | close e => simp [lastRead, hl]
              simp [hnone, hflag]

/-- C8: `ShouldDetour()` is true on every connection returned by `newDirectConn`;
in every state reached from it by a sequential run of `Dial`, `Read`, `Write` and
`Close` calls, `ShouldDetour()` is false only if some read has completed and the
most recently completed read delivered no error, and it is true whenever the
most recently completed read delivered an error. -/
theorem shouldDetour_invariant (network addr : String) (ops : List Op) (rs : List Ret)
    (w : World) (h : run (newDirectConn network addr) ops = some (rs, w)) :
    ShouldDetour (newDirectConn network addr) = true ∧
      (ShouldDetour w = false → ∃ x, lastRead rs = some x ∧ x.err = none) ∧
      (∀ x, lastRead rs = some x → x.err ≠ none → ShouldDetour w = true) := by
  have hrun := run_flag ops _ w rs h
  have hnew : ShouldDetour (newDirectConn network addr) = true := by
    simp [ShouldDetour, newDirectConn]
  refine ⟨hnew, ?_, ?_⟩
  · intro hf
    rcases hrun.mp hf with hx | ⟨_, h0⟩
    · exact hx
    · rw [hnew] at h0
      exact absurd h0 (by decide)
  · intro x hx hne
    cases hsd : ShouldDetour w with
    | true => rfl
    | false =>
      rcases hrun.mp hsd with ⟨y, hy, hy0⟩ | ⟨hl, _⟩
      · rw [hx] at hy
        cases hy
        exact absurd hy0 hne
      · rw [hx] at hl
        cases hl

/-! ## The flag while a read is in flight -/

/-- The actions of a read goroutine: the store of 1, the underlying read, and a
tail in which the flag is 1 at every point but, when the result has no error,
the point just before the send. -/
theorem readGo_timeline (v : World) (det : Detector) (b : Slice) (ret : ReadReturn)
    (c : readChecker) :
    ∃ post : List Event,
      (readGo v det b ret c).2.trace =
        v.trace ++ [.log .trace "should detour to %s? %v", .storeShouldDetour 1] ++
          .connRead b :: post ∧
      (∀ k, k < post.length → flagAfter 1 (post.take k) ≠ 1 →
        ∃ r, (readGo v det b ret c).1 = some r ∧ r.err = none ∧
          post = post.take k ++ [.send r]) ∧
      flagAfter 1 post = (readGo v det b ret c).2.dc.shouldDetour ∧
      (ShouldDetour (readGo v det b ret c).2 = false ↔
        ∃ r, (readGo v det b ret c).1 = some r ∧ r.err = none) := by
  cases hbn : (b.filled ret.mem).upTo ret.n with
  | none =>
    refine ⟨[], ?_⟩
    simp [readGo, doRead, hbn, setShouldDetour, World.emit, flagAfter, ShouldDetour]
  | some bn =>
    cases herr : ret.err with
    | none =>
      cases hf : det.FakeResponse bn <;> cases c <;>
        simp [readGo, doRead, hbn, herr, readChecker.call, checkFirstRead, checkFollowupRead,
          hf, setShouldDetour, World.emit, Errorf, ShouldDetour, flagAfter] <;>
        intro k hk <;> interval_cases k <;> simp [flagAfter]
    | some e =>
      cases ht : det.TamperingSuspected (some e) <;> cases c <;>
        simp [readGo, doRead, hbn, herr, readChecker.call, checkFirstRead, checkFollowupRead,
          ht, setShouldDetour, World.emit, ShouldDetour, flagAfter] <;>
        intro k hk <;> interval_cases k <;> simp [flagAfter]

/-- C9: whatever `shouldDetour` was before a `Read`, the actions of the read are
the log line and compare-and-swap, the store of 1, the underlying read, and a
tail `post`.  The flag is 1 when the underlying read is invoked; at every point
of `post` before its end the flag is 1, except just before the final send of a
result without error; and once the read has completed the flag is 0 exactly when
a result without error was delivered. -/
theorem Read_flag_timeline (w : World) (det : Detector) (b : Slice) (ret : ReadReturn) :
    ∃ post : List Event,
      (Read w det b ret).2.trace =
        w.trace ++
          [.log .trace "Reading from directConn to %s",
            .casReadFirst (decide (w.dc.readFirst = 0)),
            .log .trace "should detour to %s? %v", .storeShouldDetour 1] ++
          .connRead b :: post ∧
      flagAfter w.dc.shouldDetour
          [.log .trace "Reading from directConn to %s",
            .casReadFirst (decide (w.dc.readFirst = 0)),
            .log .trace "should detour to %s? %v", .storeShouldDetour 1,
            .connRead b] = 1 ∧
      (∀ k, k < post.length → flagAfter 1 (post.take k) ≠ 1 →
        ∃ r, (Read w det b ret).1 = some r ∧ r.err = none ∧
          post = post.take k ++ [.send r]) ∧
      flagAfter 1 post = (Read w det b ret).2.dc.shouldDetour ∧
      (ShouldDetour (Read w det b ret).2 = false ↔
        ∃ r, (Read w det b ret).1 = some r ∧ r.err = none) := by
  obtain ⟨post, h1, h2, h3, h4⟩ :=
    readGo_timeline (readSelect w).2 det b ret (readSelect w).1
  refine ⟨post, ?_, ?_, h2, h3, h4⟩
  · have : (Read w det b ret).2.trace =
        (readGo (readSelect w).2 det b ret (readSelect w).1).2.trace := rfl
    rw [this, h1, readSelect_trace]
    simp
  · simp [flagAfter]

/-! ## Instances -/

/-- A clean read of three bytes on a new connection. -/
theorem Read_clean_witness :
    (0 : Int) ≤ 3 ∧ (3 : Int) ≤ (zeroBuf4.len : Int) ∧
      (Read sampleConn quietDetector zeroBuf4 ⟨3, none, [72, 84, 84]⟩).1 =
        some ⟨3, none⟩ ∧
      ShouldDetour (Read sampleConn quietDetector zeroBuf4 ⟨3, none, [72, 84, 84]⟩).2 =
        false :=
  ⟨by decide, by decide,
    (Read_clean sampleConn quietDetector zeroBuf4 ⟨3, none, [72, 84, 84]⟩ rfl (by decide)
      (by decide) (fun _ _ => rfl)).2⟩

/-- A read of three bytes that the detector calls a fake response. -/
theorem Read_fake_witness :
    (zeroBuf4.filled [72, 84, 84]).upTo 3 = some httBuf3 ∧
      alarmDetector.FakeResponse httBuf3 = true ∧
      (Read sampleConn alarmDetector zeroBuf4 ⟨3, none, [72, 84, 84]⟩).1 =
        some ⟨0, some ⟨"response is hijacked"⟩⟩ ∧
      ShouldDetour (Read sampleConn alarmDetector zeroBuf4 ⟨3, none, [72, 84, 84]⟩).2 =
        true :=
  ⟨by decide, rfl,
    (Read_fake sampleConn alarmDetector zeroBuf4 ⟨3, none, [72, 84, 84]⟩ httBuf3 rfl
      (by decide) rfl).2⟩

/-- A read that stored two bytes and then timed out: the count delivered is 0,
not 2, with the detector suspecting tampering and with it not. -/
theorem Read_error_witness :
    (0 : Int) ≤ 2 ∧ (2 : Int) ≤ (zeroBuf4.cap : Int) ∧
      (Read sampleConn alarmDetector zeroBuf4 ⟨2, some timeoutErr, [72, 84]⟩).1 =
        some ⟨0, some timeoutErr⟩ ∧
      ShouldDetour (Read sampleConn alarmDetector zeroBuf4 ⟨2, some timeoutErr, [72, 84]⟩).2 =
        true ∧
      (Read sampleConn alarmDetector zeroBuf4
        ⟨2, some timeoutErr, [72, 84]⟩).2.trace.countP Event.isAskFake = 0 ∧
      (Read sampleConn quietDetector zeroBuf4 ⟨2, some timeoutErr, [72, 84]⟩).1 =
        some ⟨0, some timeoutErr⟩ ∧
      ShouldDetour (Read sampleConn quietDetector zeroBuf4 ⟨2, some timeoutErr, [72, 84]⟩).2 =
        true :=
  ⟨by decide, by decide,
    (Read_error sampleConn alarmDetector zeroBuf4 ⟨2, some timeoutErr, [72, 84]⟩ timeoutErr
      rfl (by decide) (by decide)).2.1,
    (Read_error sampleConn alarmDetector zeroBuf4 ⟨2, some timeoutErr, [72, 84]⟩ timeoutErr
      rfl (by decide) (by decide)).2.2.1,
    (Read_error sampleConn alarmDetector zeroBuf4 ⟨2, some timeoutErr, [72, 84]⟩ timeoutErr
      rfl (by decide) (by decide)).2.2.2,
    (Read_error sampleConn quietDetector zeroBuf4 ⟨2, some timeoutErr, [72, 84]⟩ timeoutErr
      rfl (by decide) (by decide)).2.1,
    (Read_error sampleConn quietDetector zeroBuf4 ⟨2, some timeoutErr, [72, 84]⟩ timeoutErr
      rfl (by decide) (by decide)).2.2.1⟩

/-- A poisoned dial whose connection fails to close. -/
theorem dialFunc_poisoned_witness :
    alarmDetector.DNSPoisoned (some stubbornConn) = true ∧
      (dialFunc sampleConn alarmDetector ⟨some stubbornConn, none⟩).1 =
        some (none, some ⟨"DNS hijacked"⟩) ∧
      ShouldDetour (dialFunc sampleConn alarmDetector ⟨some stubbornConn, none⟩).2 = true :=
  ⟨rfl, (dialFunc_poisoned sampleConn alarmDetector stubbornConn rfl).1,
    (dialFunc_poisoned sampleConn alarmDetector stubbornConn rfl).2.2.2.2.2.2 "tcp"
      "example.com:80"⟩

/-- A successful dial that is not poisoned, and a dial that times out. -/
theorem dialFunc_passthrough_witness :
    (dialFunc sampleConn quietDetector ⟨some stubbornConn, none⟩).1 =
        some (some stubbornConn, none) ∧
      (dialFunc sampleConn alarmDetector ⟨none, some timeoutErr⟩).1 =
        some (none, some timeoutErr) :=
  ⟨(dialFunc_passthrough sampleConn quietDetector ⟨some stubbornConn, none⟩
      (fun _ => rfl)).1,
    (dialFunc_passthrough sampleConn alarmDetector ⟨none, some timeoutErr⟩
      (fun h => absurd h (by decide))).1⟩

/-- Three racing `Read` calls: one first-read pick, two follow-up picks. -/
theorem readFirst_single_winner_witness :
    sched sampleConn sampleSchedule =
        some ((sched sampleConn sampleSchedule).getD ([], sampleConn)) ∧
      ((sched sampleConn sampleSchedule).getD ([], sampleConn)).1 =
        [.checkFirstRead, .checkFollowupRead, .checkFollowupRead] ∧
      ((sched sampleConn sampleSchedule).getD ([], sampleConn)).2.dc.readFirst = 1 :=
  ⟨rfl,
    (readFirst_single_winner "tcp" "example.com:80" sampleSchedule _ _ rfl).2.1,
    (readFirst_single_winner "tcp" "example.com:80" sampleSchedule _ _ rfl).2.2.2.1⟩

/-- The flag after a clean read, and after a later read that timed out. -/
theorem shouldDetour_invariant_witness :
    run sampleConn cleanOps = some ((run sampleConn cleanOps).getD ([], sampleConn)) ∧
      ShouldDetour ((run sampleConn cleanOps).getD ([], sampleConn)).2 = false ∧
      (∃ x, lastRead ((run sampleConn cleanOps).getD ([], sampleConn)).1 = some x ∧
        x.err = none) ∧
      run sampleConn timeoutOps = some ((run sampleConn timeoutOps).getD ([], sampleConn)) ∧
      lastRead ((run sampleConn timeoutOps).getD ([], sampleConn)).1 =
        some ⟨0, some timeoutErr⟩ ∧
      ShouldDetour ((run sampleConn timeoutOps).getD ([], sampleConn)).2 = true :=
  ⟨rfl, rfl,
    (shouldDetour_invariant "tcp" "example.com:80" cleanOps _ _ rfl).2.1 rfl,
    rfl, rfl,
    (shouldDetour_invariant "tcp" "example.com:80" timeoutOps _ _ rfl).2.2
      ⟨0, some timeoutErr⟩ rfl (by simp)⟩

end detour
